import Mathlib

/-!
Shallow embedding of `framework/src/utils/FunctionParserUtils.C` (MOOSE).

The embedded code covers:
* the `FunctionParserUtils` constructor (lines 56-71): resolution of the
  boolean feature flags from host parameters, including the JIT fallback
  warning emitted when libmesh lacks FParser JIT support;
* `setParserFeatureFlags` (lines 73-78);
* `evaluate` (lines 80-103) together with the `_eval_error_msg` taxonomy
  (lines 48-54);
* `addFParserConstants` (lines 105-141), the ordered constant resolver.

The external FParser/`ADFunction` expression-compiler capability is not part
of this repository; where its behaviour is needed it is modelled from the
spec (see `ADFun` below).  C++ `Real` values are modelled by `FPReal`, an
executable exact-rational type; the floating-point NaN sentinel is modelled
by a dedicated `EvalOutcome.nan` constructor; `mooseError` (fatal) is
modelled by an `Except.error` result that carries the message and, for the
resolver, the state of the caller-supplied target parser at the moment of
failure (the C++ target is mutated in place, so its partial state is
observable after a fatal error).
-/

/-- Exact rational model of the C++ `Real` value type: a canonical
numerator/denominator pair (denominator positive, fraction reduced, zero
represented as `0/1`) produced by `mkReal`. -/
structure FPReal where
  num : Int
  den : Nat
deriving DecidableEq

/-- Canonical constructor: sign carried by the numerator, fraction reduced
by the gcd.  `d = 0` is mapped to the canonical zero (never exercised by the
embedded code, which checks divisors before dividing). -/
def mkReal (n d : Int) : FPReal :=
  if d = 0 then ⟨0, 1⟩
  else
    let s : Int := if d < 0 then -n else n
    let dn : Nat := d.natAbs
    let g : Nat := s.natAbs.gcd dn
    if g = 0 then ⟨0, 1⟩
    else ⟨s / (g : Int), dn / g⟩

instance instOfNatFPReal (n : Nat) : OfNat FPReal n := ⟨⟨Int.ofNat n, 1⟩⟩

/-- Embed a natural number. -/
def FPReal.ofN (n : Nat) : FPReal := ⟨Int.ofNat n, 1⟩

/-- Rational addition. -/
def FPReal.add (a b : FPReal) : FPReal :=
  mkReal (a.num * (b.den : Int) + b.num * (a.den : Int)) ((a.den : Int) * (b.den : Int))

/-- Rational subtraction. -/
def FPReal.sub (a b : FPReal) : FPReal :=
  mkReal (a.num * (b.den : Int) - b.num * (a.den : Int)) ((a.den : Int) * (b.den : Int))

/-- Rational multiplication. -/
def FPReal.mul (a b : FPReal) : FPReal :=
  mkReal (a.num * b.num) ((a.den : Int) * (b.den : Int))

/-- Rational division (callers test the divisor for zero first, as FParser's
evaluator does). -/
def FPReal.div (a b : FPReal) : FPReal :=
  mkReal (a.num * (b.den : Int)) ((a.den : Int) * b.num)

/-- Host-supplied input parameters, as read by the constructor
(`parameters.get<bool>(...)`, lines 56-61).  `enable_jit_valid` models
`parameters.isParamValid("enable_jit")` on line 57. -/
structure FPUParams where
  enable_jit_valid : Bool
  enable_jit : Bool
  enable_ad_cache : Bool
  enable_auto_optimize : Bool
  disable_fpoptimizer : Bool
  fail_on_evalerror : Bool
deriving DecidableEq

/-- Resolved member flags of `FunctionParserUtils` (the `_enable_jit`,
`_enable_ad_cache`, `_disable_fpoptimizer`, `_enable_auto_optimize`,
`_fail_on_evalerror` members, lines 57-61). -/
structure FunctionParserUtils where
  enable_jit : Bool
  enable_ad_cache : Bool
  disable_fpoptimizer : Bool
  enable_auto_optimize : Bool
  fail_on_evalerror : Bool
deriving DecidableEq

/-- Warning text emitted on line 67. -/
def jitWarning : String :=
  "Tried to enable FParser JIT but libmesh does not have it compiled in."

/-- The `FunctionParserUtils` constructor, lines 56-71.  `have_fparser_jit`
models the compile-time `LIBMESH_HAVE_FPARSER_JIT` capability; when it is
absent the `#ifndef` block (lines 64-70) forces `_enable_jit` to `false` and
emits one `mooseWarning`.  Returns the resolved flags together with the list
of warnings emitted. -/
def mkFunctionParserUtils (p : FPUParams) (have_fparser_jit : Bool) :
    FunctionParserUtils × List String :=
  let u : FunctionParserUtils :=
    { enable_jit := p.enable_jit_valid && p.enable_jit
      enable_ad_cache := p.enable_ad_cache
      disable_fpoptimizer := p.disable_fpoptimizer
      enable_auto_optimize := p.enable_auto_optimize && !p.disable_fpoptimizer
      fail_on_evalerror := p.fail_on_evalerror }
  if have_fparser_jit then (u, [])
  else if u.enable_jit then
    ({ u with enable_jit := false }, [jitWarning])
  else (u, [])

/-- The `_eval_error_msg` table, lines 48-54. -/
def eval_error_msg : List String :=
  ["Unknown",
   "Division by zero",
   "Square root of a negative value",
   "Logarithm of negative value",
   "Trigonometric error (asin or acos of illegal value)",
   "Maximum recursion level reached"]

/-- Prefix of the fatal message on line 99. -/
def evalErrorPrefix : String :=
  "DerivativeParsedMaterial function evaluation encountered an error: "

/-- Outcome of one `evaluate` call: a numeric value, the not-a-number
sentinel (`_nan`, returned on line 102), or a fatal `mooseError` carrying
its message (lines 99-100). -/
inductive EvalOutcome where
  | value (r : FPReal)
  | nan
  | fatal (msg : String)
deriving DecidableEq

/-- `FunctionParserUtils::evaluate`, lines 80-103.  The opaque compiled
expression is an `Option`-wrapped capability that, given the parameter
vector `_func_params`, yields the pair of `parser->Eval(...)` (line 88) and
the subsequent `parser->EvalError()` (line 91).  A `none` parser is the
null-pointer shortcut of lines 84-85. -/
def evaluate (u : FunctionParserUtils) (parser : Option (List FPReal → FPReal × Int))
    (func_params : List FPReal) : EvalOutcome :=
  match parser with
  | none => EvalOutcome.value 0
  | some p =>
    let result := (p func_params).1
    let error_code := (p func_params).2
    if error_code = 0 then EvalOutcome.value result
    else if u.fail_on_evalerror then
      EvalOutcome.fatal (evalErrorPrefix ++
        (eval_error_msg.getD
          (if error_code < 0 ∨ error_code > 5 then (0 : Int) else error_code).toNat ""))
    else EvalOutcome.nan

/-!
Modelled from the spec: the external FParser/`ADFunction` expression-compiler
capability is not part of this repository (the spec treats it as an opaque
collaborator with surface `configure(flags)`, `addConstant(name, value) ->
success|failure`, `parse(text, variable_list) -> success|failure with
diagnostic`, `evaluate(params) -> numeric result` plus `lastErrorCode()`).
The model below realises that surface on a small closed-form arithmetic
grammar (integer literals, identifiers resolved against registered
constants, `+ - * /`), which is all the resolver's constant expressions
need: identifiers unknown at parse time are a parse failure, and a division
by zero during evaluation yields value `0` with error code `1`
(`DivisionByZero` in the spec's taxonomy).
-/

/-- Tokens of the modelled expression grammar. -/
inductive FTok where
  | num (q : FPReal)
  | ident (s : String)
  | plus
  | minus
  | star
  | slash
deriving DecidableEq

/-- Numeric value of a digit run. -/
def digitsToNat (ds : List Char) : Nat :=
  ds.foldl (fun a c => a * 10 + (c.toNat - 48)) 0

/-- Tokenizer of the modelled grammar; fuel-indexed, consuming at least one
character per step.  Unrecognised characters make tokenization fail (a parse
error in the capability). -/
def tokenize : Nat → List Char → Option (List FTok)
  | _, [] => some []
  | 0, _ :: _ => none
  | fuel + 1, c :: cs =>
    if c = ' ' then tokenize fuel cs
    else if c = '+' then (tokenize fuel cs).map (fun ts => FTok.plus :: ts)
    else if c = '-' then (tokenize fuel cs).map (fun ts => FTok.minus :: ts)
    else if c = '*' then (tokenize fuel cs).map (fun ts => FTok.star :: ts)
    else if c = '/' then (tokenize fuel cs).map (fun ts => FTok.slash :: ts)
    else if c.isDigit then
      (tokenize fuel ((c :: cs).dropWhile Char.isDigit)).map
        (fun ts => FTok.num (FPReal.ofN (digitsToNat ((c :: cs).takeWhile Char.isDigit))) :: ts)
    else if c.isAlpha then
      (tokenize fuel ((c :: cs).dropWhile Char.isAlpha)).map
        (fun ts => FTok.ident (String.mk ((c :: cs).takeWhile Char.isAlpha)) :: ts)
    else none

/-- Abstract syntax of a parsed constant expression.  Identifiers are
resolved against the registered constants at parse time (as FParser inlines
constants into the bytecode), so only numerals remain. -/
inductive FExpr where
  | num (q : FPReal)
  | add (a b : FExpr)
  | sub (a b : FExpr)
  | mul (a b : FExpr)
  | div (a b : FExpr)
deriving DecidableEq

/-- Look up a registered constant by name. -/
def lookupConst (env : List (String × FPReal)) (s : String) : Option FPReal :=
  (env.find? (fun p => p.1 == s)).map Prod.snd

/-- Parse one factor: a numeral or an identifier known as a constant. -/
def parseFactor (env : List (String × FPReal)) : List FTok → Option (FExpr × List FTok)
  | FTok.num q :: ts => some (FExpr.num q, ts)
  | FTok.ident s :: ts =>
    match lookupConst env s with
    | some v => some (FExpr.num v, ts)
    | none => none
  | _ => none

/-- Left-associated chain of `*` and `/` after an initial factor. -/
def parseTermLoop (env : List (String × FPReal)) :
    Nat → FExpr → List FTok → Option (FExpr × List FTok)
  | 0, _, _ => none
  | fuel + 1, e, FTok.star :: ts =>
    match parseFactor env ts with
    | some (e2, ts2) => parseTermLoop env fuel (FExpr.mul e e2) ts2
    | none => none
  | fuel + 1, e, FTok.slash :: ts =>
    match parseFactor env ts with
    | some (e2, ts2) => parseTermLoop env fuel (FExpr.div e e2) ts2
    | none => none
  | _ + 1, e, ts => some (e, ts)

/-- Parse a multiplicative term. -/
def parseTerm (env : List (String × FPReal)) (fuel : Nat) (ts : List FTok) :
    Option (FExpr × List FTok) :=
  match parseFactor env ts with
  | some (e, ts2) => parseTermLoop env fuel e ts2
  | none => none

/-- Left-associated chain of `+` and `-` after an initial term. -/
def parseSumLoop (env : List (String × FPReal)) :
    Nat → FExpr → List FTok → Option (FExpr × List FTok)
  | 0, _, _ => none
  | fuel + 1, e, FTok.plus :: ts =>
    match parseTerm env fuel ts with
    | some (e2, ts2) => parseSumLoop env fuel (FExpr.add e e2) ts2
    | none => none
  | fuel + 1, e, FTok.minus :: ts =>
    match parseTerm env fuel ts with
    | some (e2, ts2) => parseSumLoop env fuel (FExpr.sub e e2) ts2
    | none => none
  | _ + 1, e, ts => some (e, ts)

/-- Parse a full additive expression. -/
def parseSum (env : List (String × FPReal)) (fuel : Nat) (ts : List FTok) :
    Option (FExpr × List FTok) :=
  match parseTerm env fuel ts with
  | some (e, ts2) => parseSumLoop env fuel e ts2
  | none => none

/-- End-to-end parse of an expression text against an environment of
registered constants; fails on unknown identifiers, unknown characters or
trailing tokens. -/
def fparse (env : List (String × FPReal)) (text : String) : Option FExpr :=
  match tokenize (text.length + 1) text.toList with
  | none => none
  | some ts =>
    match parseSum env (ts.length + 1) ts with
    | some (e, []) => some e
    | _ => none

/-- Evaluate a parsed expression, returning the value and the evaluation
error code (0 = success, 1 = division by zero; on error the value is 0, as
FParser's `Eval` returns 0 once an error is flagged). -/
def evalF : FExpr → FPReal × Int
  | FExpr.num q => (q, 0)
  | FExpr.add a b =>
    let ra := evalF a
    let rb := evalF b
    if ra.2 ≠ 0 then (0, ra.2) else if rb.2 ≠ 0 then (0, rb.2)
    else (ra.1.add rb.1, 0)
  | FExpr.sub a b =>
    let ra := evalF a
    let rb := evalF b
    if ra.2 ≠ 0 then (0, ra.2) else if rb.2 ≠ 0 then (0, rb.2)
    else (ra.1.sub rb.1, 0)
  | FExpr.mul a b =>
    let ra := evalF a
    let rb := evalF b
    if ra.2 ≠ 0 then (0, ra.2) else if rb.2 ≠ 0 then (0, rb.2)
    else (ra.1.mul rb.1, 0)
  | FExpr.div a b =>
    let ra := evalF a
    let rb := evalF b
    if ra.2 ≠ 0 then (0, ra.2) else if rb.2 ≠ 0 then (0, rb.2)
    else if rb.1.num = 0 then (0, 1) else (ra.1.div rb.1, 0)

/-- Modelled from the spec: the state of one `ADFunction` object.
`jit_compiled` records whether the expression has been translated to native
code (a fresh expression is not; nothing in the embedded file ever JIT
compiles an expression); `ad_cache` and `auto_optimize` are the flags set by
`SetADFlags`; `consts` the constants registered via `AddConstant`, in
registration order; `bytecode` the parse result. -/
structure ADFun where
  jit_compiled : Bool := false
  ad_cache : Bool := false
  auto_optimize : Bool := false
  consts : List (String × FPReal) := []
  bytecode : Option FExpr := none
deriving DecidableEq

/-- A freshly constructed `ADFunction` (line 120: `new ADFunction()`). -/
def ADFun.new : ADFun := {}

/-- Modelled from the spec: `AddConstant` rejects names that are not valid
identifier tokens (the spec's example of injection failure is a name
collision with a reserved token); a valid name is a nonempty run of
letters. -/
def validConstName (s : String) : Bool :=
  s ≠ "" && s.toList.all Char.isAlpha

/-- `ADFunction::AddConstant(name, value)`: returns success and appends the
constant, or fails leaving the object unchanged. -/
def ADFun.addConstant (f : ADFun) (name : String) (value : FPReal) : Bool × ADFun :=
  if validConstName name then
    (true, { f with consts := f.consts ++ [(name, value)] })
  else (false, f)

/-- `ADFunction::Parse(text, vars)`: returns -1 on success (storing the
bytecode) and a non-negative error position on failure, as FParser does. -/
def ADFun.parse (f : ADFun) (text : String) (_vars : String) : Int × ADFun :=
  match fparse f.consts text with
  | some e => (-1, { f with bytecode := some e })
  | none => (0, f)

/-- Modelled from the spec: the underlying parser's diagnostic message
(`ErrorMsg()`), a fixed text in this model. -/
def ADFun.errorMsg (_f : ADFun) : String := "Syntax error"

/-- `ADFunction::Eval(params)` paired with the subsequent `EvalError()`
code.  `params` is `none` for a null parameter pointer (line 137 passes
`NULL`); the modelled constant expressions are closed-form, so parameters
are never consulted. -/
def ADFun.eval (f : ADFun) (_params : Option (List FPReal)) : FPReal × Int :=
  match f.bytecode with
  | none => (0, 0)
  | some e => evalF e

/-- `FunctionParserUtils::setParserFeatureFlags`, lines 73-78: sets the
`ADCacheDerivatives` and `ADAutoOptimize` flags from the resolved member
flags (and nothing else). -/
def setParserFeatureFlags (u : FunctionParserUtils) (f : ADFun) : ADFun :=
  { f with ad_cache := u.enable_ad_cache, auto_optimize := u.enable_auto_optimize }

/-- Message of the `mooseError` on line 113. -/
def lengthErrMsg : String :=
  "The parameter vectors constant_names and constant_values must have equal length."

/-- Message of the `mooseError` on line 128. -/
def subInjectErrMsg : String := "Invalid constant name in ParsedMaterialHelper"

/-- Message of the `mooseError` on line 140. -/
def targetInjectErrMsg : String := "Invalid constant name in parsed function object"

/-- Message of the `mooseError` on lines 132-135 (includes the literal
expression text and the parser diagnostic). -/
def parseErrMsg (text diag : String) : String :=
  "Invalid constant expression\n" ++ text ++ "\n in parsed function object.\n" ++ diag

/-- The inner loop of lines 126-128: inject the already-resolved constants
`(constant_names[j], constant_values[j])` for `j < i`, in order, into the
fresh sub-expression; the first `AddConstant` failure aborts. -/
def injectConstants (e : ADFun) : List (String × FPReal) → Option ADFun
  | [] => some e
  | (n, v) :: rest =>
    match e.addConstant n v with
    | (true, e2) => injectConstants e2 rest
    | (false, _) => none

/-- The loop of lines 118-141, one recursive step per index `i`.  `rest`
holds the not-yet-processed `(constant_names[i], constant_expressions[i])`
pairs and `acc` the already-resolved `(constant_names[j],
constant_values[j])` pairs for `j < i`, in order.  A `mooseError` becomes
`Except.error` carrying the message and the caller's target parser as
mutated so far. -/
def addFPCLoop (u : FunctionParserUtils) (parser : ADFun) :
    List (String × String) → List (String × FPReal) →
    Except (String × ADFun) (ADFun × List (String × FPReal))
  | [], acc => Except.ok (parser, acc)
  | (name, text) :: rest, acc =>
    let expression := setParserFeatureFlags u ADFun.new
    match injectConstants expression acc with
    | none => Except.error (subInjectErrMsg, parser)
    | some expr2 =>
      let pr := expr2.parse text ""
      if pr.1 ≥ 0 then Except.error (parseErrMsg text pr.2.errorMsg, parser)
      else
        let value := (pr.2.eval none).1
        let ar := parser.addConstant name value
        if ar.1 then addFPCLoop u ar.2 rest (acc ++ [(name, value)])
        else Except.error (targetInjectErrMsg, parser)

/-- `FunctionParserUtils::addFParserConstants`, lines 105-141.  On success
returns the target parser with all constants injected and the resolved
`(name, value)` pairs in definition order; on a fatal error returns the
message and the target parser's state at that moment. -/
def addFParserConstants (u : FunctionParserUtils) (parser : ADFun)
    (constant_names constant_expressions : List String) :
    Except (String × ADFun) (ADFun × List (String × FPReal)) :=
  if constant_expressions.length ≠ constant_names.length then
    Except.error (lengthErrMsg, parser)
  else addFPCLoop u parser (constant_names.zip constant_expressions) []

/-- Resolved constants of a successful resolution. -/
def resolvedOf (r : Except (String × ADFun) (ADFun × List (String × FPReal))) :
    Option (List (String × FPReal)) :=
  match r with
  | Except.ok (_, cs) => some cs
  | Except.error _ => none

/-- Constants held by the target parser at the moment of a fatal error. -/
def errStateConsts (r : Except (String × ADFun) (ADFun × List (String × FPReal))) :
    Option (List (String × FPReal)) :=
  match r with
  | Except.error (_, p) => some p.consts
  | Except.ok _ => none

/-- Message of a fatal error. -/
def errMsgOf (r : Except (String × ADFun) (ADFun × List (String × FPReal))) :
    Option String :=
  match r with
  | Except.error (m, _) => some m
  | Except.ok _ => none

/-- Default resolved flags (all parameters at their documented defaults on a
platform without FParser JIT). -/
def fpuDefault : FunctionParserUtils :=
  { enable_jit := false, enable_ad_cache := true, disable_fpoptimizer := false,
    enable_auto_optimize := true, fail_on_evalerror := false }

/-- Flags with `fail_on_evalerror` set. -/
def fpuFail : FunctionParserUtils :=
  { fpuDefault with fail_on_evalerror := true }

example : evaluate ⟨false, true, false, true, false⟩ none [1, 2] = EvalOutcome.value 0 := rfl
example : evaluate ⟨false, true, false, true, true⟩ (some fun _ => (7, 1)) [] =
    EvalOutcome.fatal (evalErrorPrefix ++ "Division by zero") := rfl
example : evaluate ⟨false, true, false, true, true⟩ (some fun _ => (7, -3)) [] =
    EvalOutcome.fatal (evalErrorPrefix ++ "Unknown") := rfl
example : evaluate ⟨false, true, false, true, false⟩ (some fun _ => (7, 4)) [] =
    EvalOutcome.nan := rfl
example : evaluate ⟨false, true, false, true, true⟩ (some fun _ => (7, 0)) [] =
    EvalOutcome.value 7 := rfl

example : resolvedOf (addFParserConstants fpuDefault ADFun.new
    ["a", "b", "c"] ["2", "a*3", "a+b"]) =
    some [("a", 2), ("b", 6), ("c", 8)] := by decide
example : resolvedOf (addFParserConstants fpuDefault ADFun.new
    ["a", "b", "c"] ["2", "a*3", "c"]) = none := by decide
example : errMsgOf (addFParserConstants fpuDefault ADFun.new
    ["a", "b", "c"] ["2", "a*3", "c"]) = some (parseErrMsg "c" "Syntax error") := by decide
example : resolvedOf (addFParserConstants fpuDefault ADFun.new
    ["a", "b", "c"] ["2", "c", "a+b"]) = none := by decide
example : errStateConsts (addFParserConstants fpuDefault ADFun.new
    ["a", "b", "c"] ["2", "a*3", "+"]) = some [("a", 2), ("b", 6)] := by decide
example : resolvedOf (addFParserConstants fpuFail ADFun.new ["a"] ["1/0"]) =
    some [("a", 0)] := by decide
example : addFParserConstants fpuDefault ADFun.new ["1x"] ["2"] =
    Except.error (targetInjectErrMsg, ADFun.new) := rfl
example : addFParserConstants fpuDefault ADFun.new ["a"] [] =
    Except.error (lengthErrMsg, ADFun.new) := rfl

/-- Flags with JIT requested and resolved true (as on a JIT-capable
platform). -/
def fpuJit : FunctionParserUtils :=
  { fpuDefault with enable_jit := true }

/-- Does the first list occur at the head of the second? -/
def startsList : List Char → List Char → Bool
  | [], _ => true
  | _ :: _, [] => false
  | a :: as, b :: bs => a = b && startsList as bs

/-- Does the first list occur anywhere inside the second? -/
def subOccurs (needle : List Char) : List Char → Bool
  | [] => startsList needle []
  | c :: cs => startsList needle (c :: cs) || subOccurs needle cs

/-- Substring test on strings (used to state whether an error message names
a constant). -/
def strContains (hay needle : String) : Bool :=
  subOccurs needle.toList hay.toList

theorem mkFPU_enable_jit (p : FPUParams) (b : Bool) :
    (mkFunctionParserUtils p b).1.enable_jit = (b && (p.enable_jit_valid && p.enable_jit)) := by
  cases b <;> cases hv : p.enable_jit_valid <;> cases hj : p.enable_jit <;>
    simp [mkFunctionParserUtils, hv, hj]

theorem mkFPU_warnings (p : FPUParams) (b : Bool) :
    (mkFunctionParserUtils p b).2 =
      (if (!b && (p.enable_jit_valid && p.enable_jit)) = true then [jitWarning] else []) := by
  cases b <;> cases hv : p.enable_jit_valid <;> cases hj : p.enable_jit <;>
    simp [mkFunctionParserUtils, hv, hj]

theorem mkFPU_enable_ad_cache (p : FPUParams) (b : Bool) :
    (mkFunctionParserUtils p b).1.enable_ad_cache = p.enable_ad_cache := by
  cases b <;> cases hv : p.enable_jit_valid <;> cases hj : p.enable_jit <;>
    simp [mkFunctionParserUtils, hv, hj]

theorem mkFPU_disable_fpoptimizer (p : FPUParams) (b : Bool) :
    (mkFunctionParserUtils p b).1.disable_fpoptimizer = p.disable_fpoptimizer := by
  cases b <;> cases hv : p.enable_jit_valid <;> cases hj : p.enable_jit <;>
    simp [mkFunctionParserUtils, hv, hj]

theorem mkFPU_enable_auto_optimize (p : FPUParams) (b : Bool) :
    (mkFunctionParserUtils p b).1.enable_auto_optimize
      = (p.enable_auto_optimize && !p.disable_fpoptimizer) := by
  cases b <;> cases hv : p.enable_jit_valid <;> cases hj : p.enable_jit <;>
    simp [mkFunctionParserUtils, hv, hj]

theorem mkFPU_fail_on_evalerror (p : FPUParams) (b : Bool) :
    (mkFunctionParserUtils p b).1.fail_on_evalerror = p.fail_on_evalerror := by
  cases b <;> cases hv : p.enable_jit_valid <;> cases hj : p.enable_jit <;>
    simp [mkFunctionParserUtils, hv, hj]

theorem addConstant_true_consts {f : ADFun} {name : String} {v : FPReal}
    (h : (f.addConstant name v).1 = true) :
    (f.addConstant name v).2.consts = f.consts ++ [(name, v)] := by
  by_cases hv : validConstName name = true <;> simp_all [ADFun.addConstant]

theorem addFPCLoop_fail_irrelevant (u : FunctionParserUtils) (b : Bool)
    (rest : List (String × String)) :
    ∀ (parser : ADFun) (acc : List (String × FPReal)),
      addFPCLoop { u with fail_on_evalerror := b } parser rest acc
        = addFPCLoop u parser rest acc := by
  induction rest with
  | nil => intro parser acc; rfl
  | cons hd r ih =>
    intro parser acc
    obtain ⟨name, text⟩ := hd
    have hsf : setParserFeatureFlags { u with fail_on_evalerror := b }
        = setParserFeatureFlags u := rfl
    simp only [addFPCLoop, hsf]
    cases injectConstants (setParserFeatureFlags u ADFun.new) acc with
    | none => rfl
    | some e2 => simp only [ih]

theorem addFPCLoop_error_consts (u : FunctionParserUtils)
    (rest : List (String × String)) :
    ∀ (parser : ADFun) (acc : List (String × FPReal)) (m : String) (p : ADFun),
      addFPCLoop u parser rest acc = Except.error (m, p) →
      ∃ newpairs : List (String × FPReal), p.consts = parser.consts ++ newpairs := by
  induction rest with
  | nil =>
    intro parser acc m p h
    exact absurd h (by simp [addFPCLoop])
  | cons hd r ih =>
    intro parser acc m p h
    obtain ⟨name, text⟩ := hd
    simp only [addFPCLoop] at h
    split at h
    · simp only [Except.error.injEq, Prod.mk.injEq] at h
      exact ⟨[], by simp [← h.2]⟩
    · rename_i e2 heq
      split at h
      · simp only [Except.error.injEq, Prod.mk.injEq] at h
        exact ⟨[], by simp [← h.2]⟩
      · split at h
        · rename_i hart
          obtain ⟨np, hp⟩ := ih _ _ _ _ h
          rw [addConstant_true_consts hart] at hp
          exact ⟨(name, ((e2.parse text "").2.eval none).1) :: np, by simp [hp]⟩
        · simp only [Except.error.injEq, Prod.mk.injEq] at h
          exact ⟨[], by simp [← h.2]⟩

theorem addFPCLoop_error_msg (u : FunctionParserUtils)
    (rest : List (String × String)) :
    ∀ (parser : ADFun) (acc : List (String × FPReal)) (m : String) (p : ADFun),
      addFPCLoop u parser rest acc = Except.error (m, p) →
      m = subInjectErrMsg ∨ m = targetInjectErrMsg ∨
        ∃ t : String, ∃ d : String, m = parseErrMsg t d := by
  induction rest with
  | nil =>
    intro parser acc m p h
    exact absurd h (by simp [addFPCLoop])
  | cons hd r ih =>
    intro parser acc m p h
    obtain ⟨name, text⟩ := hd
    simp only [addFPCLoop] at h
    split at h
    · simp only [Except.error.injEq, Prod.mk.injEq] at h
      exact Or.inl h.1.symm
    · rename_i e2 heq
      split at h
      · simp only [Except.error.injEq, Prod.mk.injEq] at h
        exact Or.inr (Or.inr ⟨text, (e2.parse text "").2.errorMsg, h.1.symm⟩)
      · split at h
        · exact ih _ _ _ _ h
        · simp only [Except.error.injEq, Prod.mk.injEq] at h
          exact Or.inr (Or.inl h.1.symm)

/-- C1: constant resolution processes the (name, expression) list strictly
in order, injecting into each constant's fresh sub-expression exactly the
constants at earlier indices (never its own name or a later one): for names
`["a","b","c"]` with expressions `["2","a*3","a+b"]` the resolved values are
a=2, b=6, c=8; an expression referencing its own name (`"c"` at index 2) or
a later name (`"c"` at index 1) is rejected with a parse error because that
name was not injected into the fresh sub-expression. -/
theorem constant_resolution_prefix_order :
    resolvedOf (addFParserConstants fpuDefault ADFun.new
      ["a", "b", "c"] ["2", "a*3", "a+b"]) = some [("a", 2), ("b", 6), ("c", 8)] ∧
    resolvedOf (addFParserConstants fpuDefault ADFun.new
      ["a", "b", "c"] ["2", "a*3", "c"]) = none ∧
    errMsgOf (addFParserConstants fpuDefault ADFun.new
      ["a", "b", "c"] ["2", "a*3", "c"]) = some (parseErrMsg "c" "Syntax error") ∧
    resolvedOf (addFParserConstants fpuDefault ADFun.new
      ["a", "b", "c"] ["2", "c", "a+b"]) = none :=
  ⟨by decide, by decide, by decide, by decide⟩

/-- C3: the resolved `_enable_auto_optimize` flag equals the requested
`enable_auto_optimize` AND NOT `disable_fpoptimizer` (line 60); in
particular with `disable_fpoptimizer = true` it is false regardless of the
requested value. -/
theorem auto_optimize_resolution :
    ∀ (p : FPUParams) (b : Bool),
      (mkFunctionParserUtils p b).1.enable_auto_optimize
        = (p.enable_auto_optimize && !p.disable_fpoptimizer) ∧
      (mkFunctionParserUtils { p with disable_fpoptimizer := true } b).1.enable_auto_optimize
        = false := by
  intro p b
  refine ⟨mkFPU_enable_auto_optimize p b, ?_⟩
  rw [mkFPU_enable_auto_optimize]
  simp

/-- C9: evaluating an absent (null) compiled expression returns exactly 0
for every flag set and every parameter vector, with no error classification
and no call into the evaluation capability (the `none` case of `evaluate`
carries no capability to call, lines 84-85). -/
theorem evaluate_null_shortcut :
    ∀ (u : FunctionParserUtils) (func_params : List FPReal),
      evaluate u none func_params = EvalOutcome.value 0 :=
  fun _ _ => rfl

/-- C6 counterexample: the fresh sub-expression built during constant
resolution (lines 120-123: a new `ADFunction` passed through
`setParserFeatureFlags`) is NOT configured with the resolved JIT setting:
with `enable_jit` resolved true, the sub-expression is still not JIT
compiled, because `setParserFeatureFlags` only sets the derivative-cache and
auto-optimize flags. -/
theorem sub_expression_jit_cex :
    fpuJit.enable_jit = true ∧
    (setParserFeatureFlags fpuJit ADFun.new).jit_compiled = false ∧
    (setParserFeatureFlags fpuJit ADFun.new).jit_compiled ≠ fpuJit.enable_jit :=
  ⟨rfl, rfl, by decide⟩

/-- C6 (amended): every fresh sub-expression built during constant
resolution is configured, via `setParserFeatureFlags`, with the same
derivative-cache and auto-optimize settings as resolved from the host
configuration; the JIT state and all other state of the expression are left
untouched by this mechanism. -/
theorem sub_expression_feature_flags :
    ∀ (u : FunctionParserUtils) (f : ADFun),
      (setParserFeatureFlags u f).ad_cache = u.enable_ad_cache ∧
      (setParserFeatureFlags u f).auto_optimize = u.enable_auto_optimize ∧
      (setParserFeatureFlags u f).jit_compiled = f.jit_compiled ∧
      (setParserFeatureFlags u f).consts = f.consts ∧
      (setParserFeatureFlags u f).bytecode = f.bytecode :=
  fun _ _ => ⟨rfl, rfl, rfl, rfl, rfl⟩

/-- C7: with mismatched-length name/expression lists, `addFParserConstants`
fails fatally with the length-check message (lines 110-113) and the target
parser untouched, before looking at any expression: the same error results
for any expression list of that length. -/
theorem length_mismatch_fatal (u : FunctionParserUtils) (parser : ADFun)
    (names exprs : List String) (h : names.length ≠ exprs.length) :
    addFParserConstants u parser names exprs = Except.error (lengthErrMsg, parser) ∧
    ∀ exprs2 : List String, exprs2.length = exprs.length →
      addFParserConstants u parser names exprs2 = Except.error (lengthErrMsg, parser) := by
  constructor
  · unfold addFParserConstants
    rw [if_pos (Ne.symm h)]
  · intro e2 he
    unfold addFParserConstants
    have hne : e2.length ≠ names.length := by rw [he]; exact Ne.symm h
    rw [if_pos hne]

theorem length_mismatch_fatal_witness :
    addFParserConstants fpuDefault ADFun.new ["a"] [] = Except.error (lengthErrMsg, ADFun.new) :=
  (length_mismatch_fatal fpuDefault ADFun.new ["a"] [] (by decide)).1

/-- C2: for a present compiled expression, error code 0 returns the numeric
result unchanged; any nonzero code with `fail_on_evalerror = false` returns
the not-a-number sentinel; with `fail_on_evalerror = true` it fails fatally
with a message carrying the taxonomy text for that code (codes 1-5 map to
their table entries; any code below 0 or above 5 classifies as
"Unknown"). -/
theorem evaluate_error_taxonomy (u : FunctionParserUtils)
    (pf : List FPReal → FPReal × Int) (ps : List FPReal) :
    ((pf ps).2 = 0 → evaluate u (some pf) ps = EvalOutcome.value (pf ps).1) ∧
    ((pf ps).2 ≠ 0 → u.fail_on_evalerror = false →
      evaluate u (some pf) ps = EvalOutcome.nan) ∧
    ((pf ps).2 ≠ 0 → u.fail_on_evalerror = true →
      evaluate u (some pf) ps = EvalOutcome.fatal (evalErrorPrefix ++
        eval_error_msg.getD
          (if (pf ps).2 < 0 ∨ (pf ps).2 > 5 then (0 : Int) else (pf ps).2).toNat "")) ∧
    ((pf ps).2 = 1 → u.fail_on_evalerror = true →
      evaluate u (some pf) ps
        = EvalOutcome.fatal (evalErrorPrefix ++ "Division by zero")) ∧
    ((pf ps).2 = 2 → u.fail_on_evalerror = true →
      evaluate u (some pf) ps
        = EvalOutcome.fatal (evalErrorPrefix ++ "Square root of a negative value")) ∧
    ((pf ps).2 = 3 → u.fail_on_evalerror = true →
      evaluate u (some pf) ps
        = EvalOutcome.fatal (evalErrorPrefix ++ "Logarithm of negative value")) ∧
    ((pf ps).2 = 4 → u.fail_on_evalerror = true →
      evaluate u (some pf) ps = EvalOutcome.fatal
        (evalErrorPrefix ++ "Trigonometric error (asin or acos of illegal value)")) ∧
    ((pf ps).2 = 5 → u.fail_on_evalerror = true →
      evaluate u (some pf) ps
        = EvalOutcome.fatal (evalErrorPrefix ++ "Maximum recursion level reached")) ∧
    (((pf ps).2 < 0 ∨ (pf ps).2 > 5) → u.fail_on_evalerror = true →
      evaluate u (some pf) ps = EvalOutcome.fatal (evalErrorPrefix ++ "Unknown")) := by
  have key : (pf ps).2 ≠ 0 → u.fail_on_evalerror = true →
      evaluate u (some pf) ps = EvalOutcome.fatal (evalErrorPrefix ++
        eval_error_msg.getD
          (if (pf ps).2 < 0 ∨ (pf ps).2 > 5 then (0 : Int) else (pf ps).2).toNat "") := by
    intro h hf
    simp [evaluate, h, hf]
  refine ⟨?_, ?_, key, ?_, ?_, ?_, ?_, ?_, ?_⟩
  · intro h; simp [evaluate, h]
  · intro h hf; simp [evaluate, h, hf]
  · intro h hf; rw [key (by omega) hf, h]; rfl
  · intro h hf; rw [key (by omega) hf, h]; rfl
  · intro h hf; rw [key (by omega) hf, h]; rfl
  · intro h hf; rw [key (by omega) hf, h]; rfl
  · intro h hf; rw [key (by omega) hf, h]; rfl
  · intro h hf
    rw [key (by omega) hf, if_pos h]
    rfl

theorem evaluate_error_taxonomy_witness :
    evaluate fpuFail (some fun _ => (7, 1)) []
        = EvalOutcome.fatal (evalErrorPrefix ++ "Division by zero") ∧
    evaluate fpuFail (some fun _ => (7, -3)) []
        = EvalOutcome.fatal (evalErrorPrefix ++ "Unknown") ∧
    evaluate fpuDefault (some fun _ => (7, 1)) [] = EvalOutcome.nan ∧
    evaluate fpuFail (some fun _ => (7, 0)) [] = EvalOutcome.value 7 :=
  ⟨(evaluate_error_taxonomy fpuFail (fun _ => (7, 1)) []).2.2.2.1 rfl rfl,
   (evaluate_error_taxonomy fpuFail (fun _ => (7, -3)) []).2.2.2.2.2.2.2.2
     (by omega) rfl,
   (evaluate_error_taxonomy fpuDefault (fun _ => (7, 1)) []).2.1 (by omega) rfl,
   (evaluate_error_taxonomy fpuFail (fun _ => (7, 0)) []).1 rfl⟩

/-- C8: requesting `enable_jit = true` on a platform without FParser JIT
resolves `_enable_jit` to false and emits exactly one warning (lines
64-70); a warning is emitted only in that situation; when no warning is
emitted the resolved JIT flag equals the requested one; and all other
flags are copied from the request (auto-optimize being the documented
conjunction, see `auto_optimize_resolution`), so the JIT fallback is the
only silent override. -/
theorem jit_fallback_policy (p : FPUParams)
    (hv : p.enable_jit_valid = true) (hj : p.enable_jit = true) :
    (mkFunctionParserUtils p false).1.enable_jit = false ∧
    (mkFunctionParserUtils p false).2.length = 1 ∧
    (∀ (q : FPUParams) (b : Bool), (mkFunctionParserUtils q b).2 ≠ [] →
      b = false ∧ (q.enable_jit_valid && q.enable_jit) = true) ∧
    (∀ (q : FPUParams) (b : Bool), (mkFunctionParserUtils q b).2 = [] →
      (mkFunctionParserUtils q b).1.enable_jit = (q.enable_jit_valid && q.enable_jit)) ∧
    (∀ (q : FPUParams) (b : Bool),
      (mkFunctionParserUtils q b).1.enable_ad_cache = q.enable_ad_cache ∧
      (mkFunctionParserUtils q b).1.disable_fpoptimizer = q.disable_fpoptimizer ∧
      (mkFunctionParserUtils q b).1.fail_on_evalerror = q.fail_on_evalerror) := by
  refine ⟨?_, ?_, ?_, ?_, ?_⟩
  · rw [mkFPU_enable_jit]; simp
  · rw [mkFPU_warnings]; simp [hv, hj]
  · intro q b hne
    rw [mkFPU_warnings] at hne
    cases b
    · refine ⟨rfl, ?_⟩
      by_cases hq : (q.enable_jit_valid && q.enable_jit) = true
      · exact hq
      · exact absurd (by simp [hq]) hne
    · exact absurd (by simp) hne
  · intro q b hemp
    rw [mkFPU_warnings] at hemp
    rw [mkFPU_enable_jit]
    cases b
    · by_cases hq : (q.enable_jit_valid && q.enable_jit) = true
      · simp [hq] at hemp
      · simp only [Bool.not_eq_true] at hq
        simp [hq]
    · simp
  · intro q b
    exact ⟨mkFPU_enable_ad_cache q b, mkFPU_disable_fpoptimizer q b,
      mkFPU_fail_on_evalerror q b⟩

theorem jit_fallback_policy_witness :
    (mkFunctionParserUtils ⟨true, true, true, true, false, false⟩ false).1.enable_jit = false ∧
    (mkFunctionParserUtils ⟨true, true, true, true, false, false⟩ false).2.length = 1 :=
  ⟨(jit_fallback_policy ⟨true, true, true, true, false, false⟩ rfl rfl).1,
   (jit_fallback_policy ⟨true, true, true, true, false, false⟩ rfl rfl).2.1⟩

/-- C4 counterexample: the target parser does NOT receive the resolved
constants only after all entries have been processed; injection happens
inside the loop (line 139), so when entry 2 (`"+"`) fails to parse the
caller-supplied target expression has already received constants `a` and
`b` — contradicting the claim that a failure leaves the target with no
injected constants. -/
theorem target_injection_not_deferred_cex :
    errMsgOf (addFParserConstants fpuDefault ADFun.new
      ["a", "b", "c"] ["2", "a*3", "+"]) = some (parseErrMsg "+" "Syntax error") ∧
    errStateConsts (addFParserConstants fpuDefault ADFun.new
      ["a", "b", "c"] ["2", "a*3", "+"]) = some [("a", 2), ("b", 6)] ∧
    some [("a", (2 : FPReal)), ("b", 6)] ≠ (some [] : Option (List (String × FPReal))) :=
  ⟨by decide, by decide, by decide⟩

/-- C4 (amended): constants are injected into the caller-supplied target
expression incrementally, at the end of each entry's iteration (line 139 is
inside the loop); when some entry fails, the target has received exactly
the constants of the earlier, already-processed entries (in general an
append of the newly resolved prefix; in the concrete failing run below,
exactly `a`), and on success it has received all of them. -/
theorem target_injection_incremental :
    (∀ (u : FunctionParserUtils) (parser : ADFun) (rest : List (String × String))
       (acc : List (String × FPReal)) (m : String) (p : ADFun),
       addFPCLoop u parser rest acc = Except.error (m, p) →
       ∃ newpairs : List (String × FPReal), p.consts = parser.consts ++ newpairs) ∧
    errStateConsts (addFParserConstants fpuDefault ADFun.new ["a", "b"] ["2", "+"])
      = some [("a", 2)] ∧
    resolvedOf (addFParserConstants fpuDefault ADFun.new ["a", "b"] ["2", "a*3"])
      = some [("a", 2), ("b", 6)] :=
  ⟨fun u parser rest acc m p h => addFPCLoop_error_consts u rest parser acc m p h,
   by decide, by decide⟩

theorem target_injection_incremental_witness :
    ∃ newpairs : List (String × FPReal),
      ADFun.new.consts = ADFun.new.consts ++ newpairs :=
  target_injection_incremental.1 fpuDefault ADFun.new [("a", "+")] []
    (parseErrMsg "+" "Syntax error") ADFun.new rfl

/-- C5 counterexample: a failed injection of a named constant into the
caller-supplied target expression is fatal with the fixed message of line
140, which does not name the offending constant (`"1x"` does not occur in
it); the sub-expression injection message of line 128 does not name it
either. -/
theorem injection_error_message_cex :
    addFParserConstants fpuDefault ADFun.new ["1x"] ["2"]
      = Except.error (targetInjectErrMsg, ADFun.new) ∧
    strContains targetInjectErrMsg "1x" = false ∧
    strContains subInjectErrMsg "1x" = false :=
  ⟨rfl, by decide, by decide⟩

/-- C5 (amended): when injecting a named constant fails, the resulting
fatal error message is one of two fixed strings — "Invalid constant name in
ParsedMaterialHelper" for injection into a fresh sub-expression (line 128)
and "Invalid constant name in parsed function object" for injection into
the caller-supplied target (line 140) — neither of which includes the
offending constant's name (the only other resolver error message is the
parse failure, built from the expression text, not from a constant
name). -/
theorem injection_error_message_fixed :
    (∀ (u : FunctionParserUtils) (parser : ADFun) (rest : List (String × String))
       (acc : List (String × FPReal)) (m : String) (p : ADFun),
       addFPCLoop u parser rest acc = Except.error (m, p) →
       m = subInjectErrMsg ∨ m = targetInjectErrMsg ∨
         ∃ t : String, ∃ d : String, m = parseErrMsg t d) ∧
    subInjectErrMsg = "Invalid constant name in ParsedMaterialHelper" ∧
    targetInjectErrMsg = "Invalid constant name in parsed function object" :=
  ⟨fun u parser rest acc m p h => addFPCLoop_error_msg u rest parser acc m p h,
   rfl, rfl⟩

theorem injection_error_message_fixed_witness :
    targetInjectErrMsg = subInjectErrMsg ∨ targetInjectErrMsg = targetInjectErrMsg ∨
      ∃ t : String, ∃ d : String, targetInjectErrMsg = parseErrMsg t d :=
  injection_error_message_fixed.1 fpuDefault ADFun.new [("1x", "2")] []
    targetInjectErrMsg ADFun.new rfl

/-- C10: during constant resolution each constant expression is evaluated
with a null parameter pointer and its post-evaluation error code is never
retrieved (line 137 uses only the returned value): the resolution result is
entirely independent of the `fail_on_evalerror` flag, and a constant
defined as `"1/0"` — whose evaluation flags error code 1 (division by
zero) — resolves without any fatal failure, silently storing the value the
capability returned (0), even with `fail_on_evalerror = true`. -/
theorem constant_resolution_ignores_evalerror :
    (∀ (u : FunctionParserUtils) (b : Bool) (parser : ADFun)
       (constant_names constant_expressions : List String),
       addFParserConstants { u with fail_on_evalerror := b } parser
           constant_names constant_expressions
         = addFParserConstants u parser constant_names constant_expressions) ∧
    fparse [] "1/0" = some (FExpr.div (FExpr.num 1) (FExpr.num 0)) ∧
    evalF (FExpr.div (FExpr.num 1) (FExpr.num 0)) = (0, 1) ∧
    fpuFail.fail_on_evalerror = true ∧
    resolvedOf (addFParserConstants fpuFail ADFun.new ["a"] ["1/0"]) = some [("a", 0)] := by
  refine ⟨?_, by decide, by decide, rfl, by decide⟩
  intro u b parser ns es
  by_cases hC : es.length ≠ ns.length
  · simp [addFParserConstants, hC]
  · simp [addFParserConstants, hC, addFPCLoop_fail_irrelevant u b]
